import Mathlib

/-!
# Verification of the WhatsApp scheduler front end against its specification

Shallow embedding of the repository's pure logic: the helper formatters in
`src/unnamed/part_001` (`formatPhone`, `truncateText`, `getMessageStatus`,
the axios response interceptor), the form-validation rules of
`CreateMessage` (`src/unnamed/part_003`), `MessageDetails`
(`src/unnamed/part_000`) and `TestMessage`, the list-actions affordances of
`MessageList.jsx`, and — where the repository ships only the presentation
layer — models of the Message Store and Message Service taken from the
specification, marked `Modelled from the spec:`.

JavaScript strings are embedded as Lean `String`/`List Char`; timestamps
(`Date` values compared with `<=`) as `Int`; JS truthiness of an optional
string field as "present and non-empty".
-/

namespace Scheduler

/-- JS truthiness of an optional string field (`message.error_message` is
truthy iff the field is present and not the empty string). -/
def strTruthy : Option String → Bool
  | none => false
  | some s => !s.isEmpty

/-- The message record as consumed by the front end: `is_sent` flag,
optional `error_message`, and the scheduled `send_time` (timestamp as `Int`). -/
structure FMessage where
  is_sent : Bool
  error_message : Option String
  send_time : Int
  deriving DecidableEq, Repr

/-- `formatters.getMessageStatus` (src/unnamed/part_001 lines 143–160):
`is_sent` → "sent"; else truthy `error_message` → "failed"; else
`send_time <= now` → "overdue"; else "pending". (Only the `status` string
of the returned record is modelled; `label`/`color` carry no logic.) -/
def getMessageStatus (m : FMessage) (now : Int) : String :=
  if m.is_sent then "sent"
  else if strTruthy m.error_message then "failed"
  else if m.send_time ≤ now then "overdue"
  else "pending"

/-- The character filter of `formatPhone`: the regex replace
`/[^\d+]/g` keeps exactly the decimal digits and `+`. -/
def keepPhoneChar (c : Char) : Bool := c.isDigit || c == '+'

/-- Core of `formatters.formatPhone` on the character list of a non-empty
input: strip characters other than digits and `+`, then prepend `+`
unless the cleaned string already starts with `+`. -/
def formatPhoneList (l : List Char) : List Char :=
  let clean := l.filter keepPhoneChar
  if clean.head? = some '+' then clean else '+' :: clean

/-- `formatters.formatPhone` (src/unnamed/part_001 lines 122–134):
falsy (empty) input returns `''`; otherwise remove non-digit, non-`+`
characters and ensure a leading `+`. -/
def formatPhone (phone : String) : String :=
  if phone.isEmpty then "" else String.mk (formatPhoneList phone.toList)

/-- `formatters.truncateText` (src/unnamed/part_001 lines 137–140):
falsy (empty) input returns `''`; text longer than `maxLength` is cut to
its first `maxLength` characters with `"..."` appended; otherwise the
text is returned unchanged. -/
def truncateText (text : String) (maxLength : Nat) : String :=
  if text.isEmpty then ""
  else if text.length > maxLength then String.mk (text.toList.take maxLength) ++ "..."
  else text

example : formatPhone "" = "" := by decide
example : formatPhone "+52 55 1234" = "+52551234" := by decide
example : formatPhone "1+2" = "+1+2" := by decide
example : formatPhone "abc" = "+" := by decide
example : truncateText "hello" 3 = "hel..." := by decide
example : truncateText "hello" 5 = "hello" := by decide
example : getMessageStatus ⟨false, none, 0⟩ 0 = "overdue" := by decide
example : getMessageStatus ⟨false, some "", 0⟩ 5 = "overdue" := by decide

/-- The canonical recipient form in the words of the spec (§3 `recipient`):
a leading `+` with digits only after it. Used to compare `formatPhone`'s
actual output against the claimed canonical form. -/
def canonicalPhone (s : String) : Bool :=
  match s.toList with
  | '+' :: rest => rest.all Char.isDigit
  | _ => false

/-- The character class removed by JavaScript `String.prototype.trim`:
ECMAScript WhiteSpace (TAB, VT, FF, SP, NBSP, ZWNBSP and the
Space_Separator code points) together with the LineTerminator code
points (LF, CR, LS, PS). -/
def jsWhitespace (c : Char) : Bool :=
  let n := c.toNat
  n == 0x09 || n == 0x0A || n == 0x0B || n == 0x0C || n == 0x0D ||
  n == 0x20 || n == 0xA0 || n == 0x1680 || (0x2000 ≤ n && n ≤ 0x200A) ||
  n == 0x2028 || n == 0x2029 || n == 0x202F || n == 0x205F ||
  n == 0x3000 || n == 0xFEFF

/-- JavaScript `.trim()` on a character list: drop the leading run of
whitespace, then the trailing run. -/
def jsTrimList (l : List Char) : List Char :=
  ((l.dropWhile jsWhitespace).reverse.dropWhile jsWhitespace).reverse

/-- JavaScript `String.prototype.trim`, as called by the submit handlers. -/
def jsTrim (s : String) : String :=
  String.mk (jsTrimList s.toList)

example : jsTrim "  hi there\n" = "hi there" := by decide
example : jsTrim "   " = "" := by decide

/-- The request body a `POST /api/schedule` or `PUT /api/scheduled/:id`
carries: `phone`, `message` and `send_time` fields. -/
structure ScheduleReq where
  phone : String
  message : String
  send_time : Int
  deriving DecidableEq, Repr

/-- The request body of `POST /api/send-now`: `phone` and `message`. -/
structure SendNowReq where
  phone : String
  message : String
  deriving DecidableEq, Repr

/-- `CreateMessage.onSubmit` payload construction (src/unnamed/part_003
lines 32–37): `phone: formatters.formatPhone(data.phone)`,
`message: data.message.trim()`, `send_time` converted to ISO form
(timestamp modelled as `Int`, the conversion as the identity). -/
def createOnSubmitPayload (phone message : String) (send_time : Int) : ScheduleReq :=
  { phone := formatPhone phone, message := jsTrim message, send_time := send_time }

/-- `MessageDetails.onSubmit` payload construction (src/unnamed/part_000
lines 60–64), identical shape to the create form's. -/
def editOnSubmitPayload (phone message : String) (send_time : Int) : ScheduleReq :=
  { phone := formatPhone phone, message := jsTrim message, send_time := send_time }

/-- `TestMessage.onSubmit` payload construction
(src/frontend/src/components/TestMessage.jsx lines 40–44). -/
def testOnSubmitPayload (phone message : String) : SendNowReq :=
  { phone := formatPhone phone, message := jsTrim message }

/-- `CreateMessage` message-field validation (src/unnamed/part_003 lines
134–144): react-hook-form `required` (rejects the empty string),
`maxLength: 4096`, `minLength: 1`. -/
def createMessageFieldValid (body : String) : Bool :=
  !body.isEmpty && decide (body.length ≤ 4096) && decide (1 ≤ body.length)

/-- `MessageDetails` message-field validation (src/unnamed/part_000 lines
190–193): react-hook-form `required` and `maxLength: 1000` — no 4096
bound and no explicit minimum beyond `required`. -/
def editMessageFieldValid (body : String) : Bool :=
  !body.isEmpty && decide (body.length ≤ 1000)

/-- `CreateMessage` send_time field `validate` rule (src/unnamed/part_003
lines 164–174): `sendTime <= now` yields the error string, otherwise the
field is valid. `true` means accepted. -/
def createSendTimeValidate (sendTime now : Int) : Bool :=
  if sendTime ≤ now then false else true

/-- The guard in `CreateMessage.onSubmit` (src/unnamed/part_003 lines
40–44): `if (sendTime <= new Date())` the submission is aborted with a
toast. `true` means the submission proceeds. -/
def createOnSubmitTimeGuard (sendTime now : Int) : Bool :=
  if sendTime ≤ now then false else true

/-- The guard in `MessageDetails.onSubmit` (src/unnamed/part_000 lines
66–71): `if (sendTime <= new Date())` the update is aborted with a
toast. `true` means the update proceeds. -/
def editOnSubmitTimeGuard (sendTime now : Int) : Bool :=
  if sendTime ≤ now then false else true

/-- The error object the axios response interceptor receives:
`error.response?.status` (absent when the request never got a response),
`error.response?.data?.message` and `error.message`. -/
structure AxiosError where
  responseStatus : Option Nat
  responseDataMessage : Option String
  errorMessage : Option String
  deriving DecidableEq, Repr

/-- JavaScript `a || b` on an optional string against a fallback: the
left operand wins iff it is present and non-empty. -/
def jsOr (a : Option String) (b : String) : String :=
  match a with
  | some s => if s.isEmpty then b else s
  | none => b

/-- The toast text computed by the interceptor (src/unnamed/part_001 line
17): `error.response?.data?.message || error.message || 'Error desconocido'`. -/
def interceptorMessage (e : AxiosError) : String :=
  jsOr e.responseDataMessage (jsOr e.errorMessage "Error desconocido")

/-- Outcome of the interceptor's error branch: which toast (if any) was
shown, and the value the promise settles with. -/
structure InterceptOutcome where
  toast : Option String
  result : Except AxiosError Unit
  deriving Repr

/-- The axios response interceptor's error handler (src/unnamed/part_001
lines 14–26): shows the toast unless `error.response?.status` is `404`,
and always returns `Promise.reject(error)`. -/
def interceptorOnError (e : AxiosError) : InterceptOutcome :=
  { toast := if e.responseStatus ≠ some 404 then some (interceptorMessage e) else none
    result := Except.error e }

/-- The edit action in the list (src/frontend/src/components/MessageList.jsx
line 233): the edit button is rendered iff `!message.is_sent`. -/
def editButtonShown (m : FMessage) : Bool := !m.is_sent

/-- The delete action in the list (src/frontend/src/components/MessageList.jsx
lines 243–249): rendered unconditionally, for every message. -/
def deleteButtonShown (_m : FMessage) : Bool := true

/-- The spec's derived status (§3 invariants): sent iff the sent flag is
present, failed iff an error message is present and the sent flag absent,
pending otherwise. -/
inductive Status where
  | pending
  | sent
  | failed
  deriving DecidableEq, Repr

/-- The derived status of a front-end message record per the spec's §3
invariant, with the `is_sent` flag as the sent marker and JS truthiness
of `error_message` as presence. -/
def statusOf (m : FMessage) : Status :=
  if m.is_sent then .sent
  else if strTruthy m.error_message then .failed
  else .pending

/-- Outcome of a Message Service `edit` call. -/
inductive EditOutcome where
  | ok
  | conflict
  deriving DecidableEq, Repr

/-- Modelled from the spec: the Message Service is not part of src/ (the
repository ships only the presentation layer). §4.4/§8: `edit(id, fields)`
rejects edits of `recipient`/`body`/`send_time` on a non-pending message
with `Conflict`, and succeeds on a pending one. -/
def serviceEdit (st : Status) : EditOutcome :=
  if st = .pending then .ok else .conflict

/-- Modelled from the spec: the Message Service is not part of src/.
§4.4: `remove(id) -> ok`: unconditional delete, any status. `true` means
the delete succeeds. -/
def serviceDelete (_st : Status) : Bool := true

/-- Message Store record statuses, including the internal `in_flight`
marker of the spec's §4.1. -/
inductive StoreStatus where
  | pending
  | inFlight
  | sent
  | failed
  deriving DecidableEq, Repr

/-- A Message Store row: id, status and scheduled send time. -/
structure StoredMsg where
  id : Nat
  status : StoreStatus
  send_time : Int
  deriving DecidableEq, Repr

/-- A row is due at `now` iff it is pending and its send time has arrived. -/
def isDue (now : Int) (m : StoredMsg) : Bool :=
  m.status == .pending && decide (m.send_time ≤ now)

/-- Transition a row to `in_flight` iff its id was claimed and it is
still pending. -/
def markClaimed (ids : List Nat) (m : StoredMsg) : StoredMsg :=
  if ids.contains m.id && m.status == .pending then { m with status := .inFlight } else m

/-- Modelled from the spec: the Message Store is not part of src/ (the
repository ships only the presentation layer). §4.1 `claim_due(now, limit)`:
atomically select up to `limit` rows with `status == pending` and
`send_time <= now`, transition them to the internal `in_flight` marker,
and return their ids. Atomicity is modelled by making the whole operation
one function of the store state, so any concurrent execution of two
claims is a serialization of the two calls. -/
def claimDue (store : List StoredMsg) (now : Int) (limit : Nat) :
    List Nat × List StoredMsg :=
  let ids := ((store.filter (isDue now)).take limit).map StoredMsg.id
  (ids, store.map (markClaimed ids))

example :
    claimDue [⟨1, .pending, 0⟩, ⟨2, .pending, 5⟩, ⟨3, .sent, 0⟩] 3 10 =
      ([1], [⟨1, .inFlight, 0⟩, ⟨2, .pending, 5⟩, ⟨3, .sent, 0⟩]) := by decide

/-! ## Helper lemmas -/

/-- `formatPhoneList` always yields `'+'` followed by characters that
survive the `[^\d+]` filter. -/
lemma formatPhoneList_shape (l : List Char) :
    ∃ t, formatPhoneList l = '+' :: t ∧ t.all keepPhoneChar = true := by
  have hall : (l.filter keepPhoneChar).all keepPhoneChar = true := by
    rw [List.all_eq_true]
    intro a ha
    exact (List.mem_filter.mp ha).2
  unfold formatPhoneList
  by_cases h : (l.filter keepPhoneChar).head? = some '+'
  · rw [if_pos h]
    cases hc : l.filter keepPhoneChar with
    | nil => rw [hc] at h; simp at h
    | cons c t =>
      rw [hc] at h
      simp only [List.head?_cons, Option.some.injEq] at h
      subst h
      refine ⟨t, rfl, ?_⟩
      rw [hc, List.all_cons, Bool.and_eq_true] at hall
      exact hall.2
  · rw [if_neg h]
    exact ⟨l.filter keepPhoneChar, rfl, hall⟩

/-- The head of `dropWhile p l` does not satisfy `p` (option form). -/
lemma head?_dropWhile_all {α : Type} (p : α → Bool) (l : List α) :
    ((l.dropWhile p).head?.all fun c => !p c) = true := by
  have h := List.head?_dropWhile_not p l
  cases hh : (l.dropWhile p).head? with
  | none => rfl
  | some c =>
    rw [hh] at h
    simp [Option.all, h]

/-- Every element of `takeWhile p l` satisfies `p`. -/
lemma takeWhile_all {α : Type} (p : α → Bool) (l : List α) :
    (l.takeWhile p).all p = true := by
  rw [List.all_eq_true]
  intro a ha
  exact List.mem_takeWhile_imp ha

/-- A string is empty iff its character length is zero. -/
lemma isEmpty_iff_length (s : String) : s.isEmpty = true ↔ s.length = 0 := by
  rw [show (s.isEmpty = true) = (s.isEmpty : Prop) from rfl, String.isEmpty_iff]
  constructor
  · intro h
    subst h
    rfl
  · intro h
    apply String.ext
    exact List.length_eq_zero.mp h

/-- The react-hook-form `required` check: `!isEmpty` holds iff the
string has at least one character. -/
lemma not_isEmpty_iff (s : String) : (!s.isEmpty) = true ↔ 1 ≤ s.length := by
  rw [Bool.not_eq_true']
  constructor
  · intro h
    rcases Nat.eq_zero_or_pos s.length with h0 | h0
    · rw [← isEmpty_iff_length] at h0
      rw [h0] at h
      cases h
    · exact h0
  · intro h
    rcases hb : s.isEmpty with _ | _
    · rfl
    · rw [isEmpty_iff_length] at hb
      omega

/-! ## Claims -/

/-- C1 (amended): the derived display status of a message record is
`"sent"` iff the sent flag is set; `"failed"` iff an error message is
present (and the sent flag absent); `"overdue"` iff the message is
pending and `send_time ≤ now`; and `"pending"` iff the message is
pending and `now < send_time`. The only deviation from the claim is the
boundary: at `send_time == now` the label is already `"overdue"`, not
only for `send_time` strictly before `now`. -/
theorem c1_status_derivation (m : FMessage) (now : Int) :
    (getMessageStatus m now = "sent" ↔ m.is_sent = true) ∧
    (getMessageStatus m now = "failed" ↔
      (m.is_sent = false ∧ strTruthy m.error_message = true)) ∧
    (getMessageStatus m now = "overdue" ↔
      (statusOf m = .pending ∧ m.send_time ≤ now)) ∧
    (getMessageStatus m now = "pending" ↔
      (statusOf m = .pending ∧ now < m.send_time)) := by
  have h1 : ("sent" : String) ≠ "failed" := by decide
  have h2 : ("sent" : String) ≠ "overdue" := by decide
  have h3 : ("sent" : String) ≠ "pending" := by decide
  have h4 : ("failed" : String) ≠ "overdue" := by decide
  have h5 : ("failed" : String) ≠ "pending" := by decide
  have h6 : ("overdue" : String) ≠ "pending" := by decide
  unfold getMessageStatus statusOf
  cases hs : m.is_sent <;> cases he : strTruthy m.error_message <;>
    by_cases ht : m.send_time ≤ now <;>
      first
        | simp [hs, he, ht, not_lt.mpr ht, h1, h2, h3, h4, h5, h6, h1.symm,
            h2.symm, h3.symm, h4.symm, h5.symm, h6.symm]
        | simp [hs, he, ht, not_le.mp ht, h1, h2, h3, h4, h5, h6, h1.symm,
            h2.symm, h3.symm, h4.symm, h5.symm, h6.symm]

/-- C1 counterexample: a pending message whose `send_time` equals `now`
(so `send_time < now` fails) is nevertheless labelled `"overdue"`,
refuting the claim that the overdue label appears exactly when
`send_time` is strictly before `now`. -/
theorem c1_boundary_counterexample :
    statusOf ⟨false, none, 0⟩ = .pending ∧
    ¬ ((0 : Int) < 0) ∧
    getMessageStatus ⟨false, none, 0⟩ 0 = "overdue" ∧
    getMessageStatus ⟨false, none, 0⟩ 0 ≠ "pending" := by decide

/-- C5: all three send-time checks (the create form's field `validate`
rule, the create form's submit guard, and the edit form's submit guard)
accept a send time iff it is strictly after `now`; the boundary
`send_time == now` is rejected as past. -/
theorem c5_send_time_strictly_future (sendTime now : Int) :
    (createSendTimeValidate sendTime now = true ↔ now < sendTime) ∧
    (createOnSubmitTimeGuard sendTime now = true ↔ now < sendTime) ∧
    (editOnSubmitTimeGuard sendTime now = true ↔ now < sendTime) ∧
    createSendTimeValidate now now = false ∧
    createOnSubmitTimeGuard now now = false ∧
    editOnSubmitTimeGuard now now = false := by
  unfold createSendTimeValidate createOnSubmitTimeGuard editOnSubmitTimeGuard
  refine ⟨?_, ?_, ?_, ?_, ?_, ?_⟩
  · split <;> simp_all
  · split <;> simp_all
  · split <;> simp_all
  · simp
  · simp
  · simp

/-- C7: the interceptor's error handler always settles the promise by
rejecting with the original error, and shows a toast iff the response
status is not `404` (a missing response counts as "not 404"). -/
theorem c7_interceptor_behaviour (e : AxiosError) :
    (interceptorOnError e).result = Except.error e ∧
    ((interceptorOnError e).toast.isSome ↔ e.responseStatus ≠ some 404) ∧
    (interceptorOnError e).toast =
      (if e.responseStatus ≠ some 404 then some (interceptorMessage e) else none) := by
  unfold interceptorOnError
  refine ⟨rfl, ?_, rfl⟩
  split <;> simp_all

/-- C10: `truncateText` returns the text unchanged when its length is at
most `maxLength`, and otherwise the first `maxLength` characters followed
by `"..."`, of total length `maxLength + 3`; the empty input yields the
empty string. -/
theorem c10_truncateText_spec (text : String) (maxLength : Nat) :
    truncateText text maxLength =
      (if text.length ≤ maxLength then text
       else String.mk (text.toList.take maxLength) ++ "...") ∧
    (truncateText text maxLength).length =
      (if text.length ≤ maxLength then text.length else maxLength + 3) ∧
    truncateText "" maxLength = "" := by
  have hlen : text.toList.length = text.length := rfl
  have hdots : ("..." : String).length = 3 := rfl
  have hE : ("" : String).isEmpty = true := rfl
  refine ⟨?_, ?_, by simp [truncateText, hE]⟩
  · unfold truncateText
    by_cases he : text.isEmpty
    · have h0 : text = "" := (String.isEmpty_iff text).mp he
      subst h0
      simp [hE]
    · rw [if_neg he]
      by_cases h : text.length ≤ maxLength
      · rw [if_neg (by omega : ¬ text.length > maxLength), if_pos h]
      · rw [if_pos (by omega : text.length > maxLength), if_neg h]
  · unfold truncateText
    by_cases he : text.isEmpty
    · have h0 : text = "" := (String.isEmpty_iff text).mp he
      subst h0
      simp [hE]
    · rw [if_neg he]
      by_cases h : text.length ≤ maxLength
      · rw [if_neg (by omega : ¬ text.length > maxLength), if_pos h]
      · rw [if_pos (by omega : text.length > maxLength), if_neg h]
        rw [String.length_append, String.length_mk, List.length_take, hlen, hdots]
        omega

/-- C4 (amended): the create form accepts a message body iff its length
is between 1 and 4096, but the edit form accepts a body iff its length
is between 1 and 1000 — its `maxLength` bound is 1000, not 4096. -/
theorem c4_body_validation (body : String) :
    (createMessageFieldValid body = true ↔
      1 ≤ body.length ∧ body.length ≤ 4096) ∧
    (editMessageFieldValid body = true ↔
      1 ≤ body.length ∧ body.length ≤ 1000) := by
  constructor <;>
    (simp only [createMessageFieldValid, editMessageFieldValid, Bool.and_eq_true,
      not_isEmpty_iff, decide_eq_true_eq] <;> omega)

/-- A body of 1001 characters, inside the 1–4096 range the claim says
both forms accept. -/
def body1001 : String := String.mk (List.replicate 1001 'a')

/-- C4 counterexample: a 1001-character body is within the claimed
acceptable range (1 to 4096) and is accepted by the create form, yet the
edit form rejects it. -/
theorem c4_edit_limit_counterexample :
    body1001.length = 1001 ∧
    createMessageFieldValid body1001 = true ∧
    editMessageFieldValid body1001 = false := by
  have hlen : body1001.length = 1001 := by
    rw [body1001, String.length_mk, List.length_replicate]
  have hne : body1001.isEmpty = false := by
    cases h : body1001.isEmpty
    · rfl
    · have h0 := (isEmpty_iff_length body1001).mp h
      omega
  refine ⟨hlen, ?_, ?_⟩
  · simp only [createMessageFieldValid, hne, hlen]
    decide
  · simp only [editMessageFieldValid, hne, hlen]
    decide

/-- C6 (amended): the Message Service (modelled from the spec) rejects an
edit with `Conflict` exactly on non-pending messages and lets a delete
succeed for any status; in the list UI the delete button is offered for
every message, but the edit affordance is hidden only for sent messages —
it is offered whenever the sent flag is absent, including failed ones. -/
theorem c6_edit_delete_affordances (m : FMessage) (now : Int) :
    (∀ st : Status, serviceEdit st = .conflict ↔ st ≠ .pending) ∧
    (∀ st : Status, serviceDelete st = true) ∧
    deleteButtonShown m = true ∧
    (editButtonShown m = true ↔ getMessageStatus m now ≠ "sent") := by
  have hsf : ("failed" : String) ≠ "sent" := by decide
  have hso : ("overdue" : String) ≠ "sent" := by decide
  have hsp : ("pending" : String) ≠ "sent" := by decide
  refine ⟨?_, fun st => rfl, rfl, ?_⟩
  · intro st
    cases st <;> simp [serviceEdit]
  · unfold editButtonShown getMessageStatus
    cases hs : m.is_sent
    · cases he : strTruthy m.error_message
      · by_cases ht : m.send_time ≤ now
        · simp [ht, hso]
        · simp [ht, hsp]
      · simp [hsf]
    · simp

/-- C6 counterexample: a failed message (error message present, sent flag
absent) still gets the edit button in the list — the edit affordance is
not offered only for pending messages. -/
theorem c6_failed_editable_counterexample :
    statusOf ⟨false, some "invalid number", 10⟩ = .failed ∧
    getMessageStatus ⟨false, some "invalid number", 10⟩ 0 = "failed" ∧
    editButtonShown ⟨false, some "invalid number", 10⟩ = true := by decide

/-- C3 (amended): on a non-empty input, `formatPhone` returns `'+'`
followed by characters that are each a digit or another `'+'` (the
`[^\d+]` filter keeps interior plus signs); the empty input yields the
empty string. -/
theorem c3_formatPhone_shape (p : String) :
    (p.isEmpty = true ∧ formatPhone p = "") ∨
    (∃ cs : List Char, (formatPhone p).toList = '+' :: cs ∧
      cs.all keepPhoneChar = true) := by
  by_cases hp : p.isEmpty
  · exact Or.inl ⟨hp, by simp [formatPhone, hp]⟩
  · right
    obtain ⟨t, ht, hall⟩ := formatPhoneList_shape p.toList
    refine ⟨t, ?_, hall⟩
    unfold formatPhone
    rw [if_neg hp]
    exact ht

/-- C3 counterexample: `formatPhone "1+2"` keeps the interior plus sign,
so its output is not a single `'+'` followed by digits only; the empty
input also fails the canonical form. -/
theorem c3_plus_retained_counterexample :
    formatPhone "1+2" = "+1+2" ∧
    canonicalPhone (formatPhone "1+2") = false ∧
    formatPhone "" = "" ∧
    canonicalPhone (formatPhone "") = false := by decide

/-- C9: `formatPhone` is idempotent — formatting an already formatted
number leaves it unchanged. -/
theorem c9_formatPhone_idempotent (p : String) :
    formatPhone (formatPhone p) = formatPhone p := by
  by_cases hp : p.isEmpty
  · have h : formatPhone p = "" := by simp [formatPhone, hp]
    rw [h]
    have hE : ("" : String).isEmpty = true := rfl
    simp [formatPhone, hE]
  · obtain ⟨t, ht, hall⟩ := formatPhoneList_shape p.toList
    have hfp : formatPhone p = String.mk ('+' :: t) := by
      unfold formatPhone
      rw [if_neg hp, ht]
    rw [hfp]
    have hne : ¬ (String.mk ('+' :: t)).isEmpty = true := by
      intro h
      have h0 := (isEmpty_iff_length (String.mk ('+' :: t))).mp h
      rw [String.length_mk, List.length_cons] at h0
      omega
    unfold formatPhone
    rw [if_neg hne]
    have htl : (String.mk ('+' :: t)).toList = '+' :: t := rfl
    rw [htl]
    have hfilter : ('+' :: t).filter keepPhoneChar = '+' :: t := by
      rw [List.filter_eq_self]
      intro a ha
      rcases List.mem_cons.mp ha with h | h
      · subst h
        decide
      · exact List.all_eq_true.mp hall a h
    have hfl : formatPhoneList ('+' :: t) = '+' :: t := by
      show (if (('+' :: t).filter keepPhoneChar).head? = some '+'
            then ('+' :: t).filter keepPhoneChar
            else '+' :: ('+' :: t).filter keepPhoneChar) = '+' :: t
      rw [hfilter]
      simp
    rw [hfl]

/-- C8: every submission path (schedule, edit, send-now) transmits the
user-entered body with leading and trailing whitespace removed: the
payload's `message` equals `jsTrim` of the input, the input decomposes
as whitespace + transmitted body + whitespace, and the transmitted body
neither starts nor ends with whitespace. -/
theorem c8_submitted_body_is_trimmed (phone msg : String) (send_time : Int) :
    (createOnSubmitPayload phone msg send_time).message = jsTrim msg ∧
    (editOnSubmitPayload phone msg send_time).message = jsTrim msg ∧
    (testOnSubmitPayload phone msg).message = jsTrim msg ∧
    ∃ pre post : List Char,
      msg.toList = pre ++ (jsTrim msg).toList ++ post ∧
      pre.all jsWhitespace = true ∧
      post.all jsWhitespace = true ∧
      ((jsTrim msg).toList.head?.all fun c => !jsWhitespace c) = true ∧
      ((jsTrim msg).toList.getLast?.all fun c => !jsWhitespace c) = true := by
  refine ⟨rfl, rfl, rfl, ?_⟩
  have htl : (jsTrim msg).toList = jsTrimList msg.toList := rfl
  rw [htl]
  set l := msg.toList with hl
  set d := l.dropWhile jsWhitespace with hd
  set r := d.reverse with hr
  have hsplit : d = (r.dropWhile jsWhitespace).reverse ++ (r.takeWhile jsWhitespace).reverse := by
    rw [← List.reverse_append, List.takeWhile_append_dropWhile, hr, List.reverse_reverse]
  have htrim : jsTrimList l = (r.dropWhile jsWhitespace).reverse := by
    unfold jsTrimList
    rw [← hd, ← hr]
  rw [htrim]
  refine ⟨l.takeWhile jsWhitespace, (r.takeWhile jsWhitespace).reverse, ?_, ?_, ?_, ?_, ?_⟩
  · rw [List.append_assoc, ← hsplit, List.takeWhile_append_dropWhile]
  · exact takeWhile_all _ _
  · rw [List.all_reverse]
    exact takeWhile_all _ _
  · cases hc : (r.dropWhile jsWhitespace).reverse.head? with
    | none => rfl
    | some c =>
      have hdh : d.head? = some c := by
        rw [hsplit, List.head?_append, hc, Option.or_some]
      have hall_d := head?_dropWhile_all jsWhitespace l
      rw [← hd, hdh] at hall_d
      exact hall_d
  · rw [List.getLast?_reverse]
    exact head?_dropWhile_all jsWhitespace r

/-- C2: two invocations of `claim_due` (modelled from the spec as one
atomic operation on the store: any concurrent execution is a
serialization of the two calls) over arbitrary, possibly overlapping
time windows never return the same message id: every id claimed by the
first call is absent from the second call's result set. -/
theorem c2_claim_due_exclusive (store : List StoredMsg) (now1 now2 : Int)
    (limit1 limit2 : Nat) :
    ((claimDue store now1 limit1).1.all
      (fun i => !((claimDue (claimDue store now1 limit1).2 now2 limit2).1.contains i)))
      = true := by
  rw [List.all_eq_true]
  intro i hi1
  simp only [Bool.not_eq_true']
  cases hcc : ((claimDue (claimDue store now1 limit1).2 now2 limit2).1.contains i) with
  | false => rfl
  | true =>
    exfalso
    have hi2 : i ∈ (claimDue (claimDue store now1 limit1).2 now2 limit2).1 := by
      have h := List.contains_iff_exists_mem_beq.mp hcc
      obtain ⟨b, hb, hba⟩ := h
      rw [beq_iff_eq] at hba
      rw [hba]
      exact hb
    have hi1' : (claimDue store now1 limit1).1.contains i = true := by
      apply List.contains_iff_exists_mem_beq.mpr
      exact ⟨i, hi1, by rw [beq_iff_eq]⟩
    have hfst : (claimDue (claimDue store now1 limit1).2 now2 limit2).1 =
        (((claimDue store now1 limit1).2.filter (isDue now2)).take limit2).map
          StoredMsg.id := rfl
    rw [hfst] at hi2
    obtain ⟨m', hm'take, hm'id⟩ := List.mem_map.mp hi2
    have hm'filter := List.mem_of_mem_take hm'take
    rw [List.mem_filter] at hm'filter
    obtain ⟨hm's1, hdue⟩ := hm'filter
    have hsnd : (claimDue store now1 limit1).2 =
        store.map (markClaimed (claimDue store now1 limit1).1) := rfl
    rw [hsnd] at hm's1
    obtain ⟨m, hmstore, hmark⟩ := List.mem_map.mp hm's1
    unfold isDue at hdue
    rw [Bool.and_eq_true, beq_iff_eq] at hdue
    unfold markClaimed at hmark
    by_cases hcond : ((claimDue store now1 limit1).1.contains m.id
        && (m.status == StoreStatus.pending)) = true
    · rw [if_pos hcond] at hmark
      have hstat : m'.status = StoreStatus.inFlight := by
        rw [← hmark]
      rw [hstat] at hdue
      exact StoreStatus.noConfusion hdue.1
    · rw [if_neg hcond] at hmark
      subst hmark
      rw [Bool.and_eq_true] at hcond
      apply hcond
      constructor
      · rw [hm'id]
        exact hi1'
      · rw [beq_iff_eq]
        exact hdue.1

end Scheduler
